import Mathlib

/-!
Verification of the Timeline Selection Engine of the ffmPeg-Video-Editor
repository: a shallow embedding of the client-side timeline-selection state
(`src/components/VideoPlayer.tsx`), the trim-range state
(`src/components/VideoEditor.tsx` together with
`src/components/VideoEditControls.tsx`), and the server-side delete-range
request validation (`src/app/api/video/delete-range/route.ts`).

Times and durations are modelled as rationals (the source uses finite JS
numbers; every guard in the modelled paths first checks `isFinite`, so the
rational model covers exactly the values those paths act on).
-/

namespace Timeline

/-- `Math.min` on finite numbers. -/
def jsMin (a b : ℚ) : ℚ := if a ≤ b then a else b

/-- `Math.max` on finite numbers. -/
def jsMax (a b : ℚ) : ℚ := if a ≤ b then b else a

/-- `Math.abs` on finite numbers. -/
def jsAbs (x : ℚ) : ℚ := if x < 0 then -x else x

/-- The React component props of `VideoPlayer` that matter to the selection
logic: whether the `onDeleteRange` and `onExtractRange` callbacks were
supplied by the parent.  (`VideoEditor.tsx` supplies `onDeleteRange` but not
`onExtractRange`; the component itself accepts both.) -/
structure Props where
  hasDeleteCb : Bool
  hasExtractCb : Bool
deriving DecidableEq, Repr

/-- The `useState` fields of `VideoPlayer` that the selection logic reads and
writes (`VideoPlayer.tsx` lines 38-49): the playhead, the reported duration,
the delete-range pair with its selecting flag, and the extract-range pair with
its selecting flag. -/
structure PlayerState where
  currentTime : ℚ
  duration : ℚ
  deleteRangeStart : Option ℚ
  deleteRangeEnd : Option ℚ
  isSelectingDeleteRange : Bool
  extractRangeStart : Option ℚ
  extractRangeEnd : Option ℚ
  isSelectingExtractRange : Bool
deriving DecidableEq, Repr

/-- The component's initial state: all `useState` initialisers
(`VideoPlayer.tsx` lines 39-49). -/
def initPlayer : PlayerState :=
  { currentTime := 0
    duration := 0
    deleteRangeStart := none
    deleteRangeEnd := none
    isSelectingDeleteRange := false
    extractRangeStart := none
    extractRangeEnd := none
    isSelectingExtractRange := false }

/-- `hasValidDeleteRange` (`VideoPlayer.tsx` lines 293-294): both endpoints
set and `Math.abs(deleteRangeEnd - deleteRangeStart) > 0.1`. -/
def hasValidDeleteRange (s : PlayerState) : Bool :=
  match s.deleteRangeStart, s.deleteRangeEnd with
  | some a, some b => decide (jsAbs (b - a) > 1/10)
  | _, _ => false

/-- `hasValidExtractRange` (`VideoPlayer.tsx` lines 305-306): both endpoints
set and `Math.abs(extractRangeEnd - extractRangeStart) > 0.1`. -/
def hasValidExtractRange (s : PlayerState) : Bool :=
  match s.extractRangeStart, s.extractRangeEnd with
  | some a, some b => decide (jsAbs (b - a) > 1/10)
  | _, _ => false

/-- `handleSeek` (`VideoPlayer.tsx` lines 120-164) for a click whose computed
time is `t`.  The geometric computation clamps `t` to `[0, duration]`, and the
handler only acts when `duration > 0`; under those guards the branch cascade
is: delete selection in progress, extract selection in progress, arm delete
(when the callback exists and no delete start is set), arm extract (when the
callback exists and no extract start is set), and only then a plain seek. -/
def handleSeek (pr : Props) (t : ℚ) (s : PlayerState) : PlayerState :=
  if s.duration > 0 ∧ 0 ≤ t ∧ t ≤ s.duration then
    if s.isSelectingDeleteRange then
      match s.deleteRangeStart with
      | none => { s with deleteRangeStart := some t }
      | some _ => { s with deleteRangeEnd := some t, isSelectingDeleteRange := false }
    else if s.isSelectingExtractRange then
      match s.extractRangeStart with
      | none => { s with extractRangeStart := some t }
      | some _ => { s with extractRangeEnd := some t, isSelectingExtractRange := false }
    else if s.deleteRangeStart = none ∧ pr.hasDeleteCb then
      { s with deleteRangeStart := some t, isSelectingDeleteRange := true }
    else if s.extractRangeStart = none ∧ pr.hasExtractCb then
      { s with extractRangeStart := some t, isSelectingExtractRange := true }
    else
      { s with currentTime := t }
  else s

/-- `handleDurationChange` (`VideoPlayer.tsx` lines 64-71): stores the new
duration; no selection field is touched. -/
def handleDurationChange (d : ℚ) (s : PlayerState) : PlayerState :=
  { s with duration := d }

/-- `clearDeleteRange` (`VideoPlayer.tsx` lines 225-229). -/
def clearDeleteRange (s : PlayerState) : PlayerState :=
  { s with deleteRangeStart := none, deleteRangeEnd := none,
           isSelectingDeleteRange := false }

/-- `clearExtractRange` (`VideoPlayer.tsx` lines 242-246). -/
def clearExtractRange (s : PlayerState) : PlayerState :=
  { s with extractRangeStart := none, extractRangeEnd := none,
           isSelectingExtractRange := false }

/-- `normalize` of the spec, as executed by `executeDeleteRange` /
`executeExtractRange` (`VideoPlayer.tsx` lines 233-234 and 250-251):
`(Math.min(a, b), Math.max(a, b))`. -/
def normalize (a b : ℚ) : ℚ × ℚ := (jsMin a b, jsMax a b)

/-- `executeDeleteRange` (`VideoPlayer.tsx` lines 231-240): when the callback
exists and both endpoints are set, normalize them; if `start < end ∧
0 ≤ start ∧ end ≤ duration`, emit the range and clear the delete selection;
otherwise change nothing and emit nothing. -/
def executeDeleteRange (pr : Props) (s : PlayerState) :
    Option (ℚ × ℚ) × PlayerState :=
  match pr.hasDeleteCb, s.deleteRangeStart, s.deleteRangeEnd with
  | true, some a, some b =>
    let lo := jsMin a b
    let hi := jsMax a b
    if lo < hi ∧ 0 ≤ lo ∧ hi ≤ s.duration then
      (some (lo, hi), clearDeleteRange s)
    else (none, s)
  | _, _, _ => (none, s)

/-- `executeExtractRange` (`VideoPlayer.tsx` lines 248-257), symmetric to
`executeDeleteRange`. -/
def executeExtractRange (pr : Props) (s : PlayerState) :
    Option (ℚ × ℚ) × PlayerState :=
  match pr.hasExtractCb, s.extractRangeStart, s.extractRangeEnd with
  | true, some a, some b =>
    let lo := jsMin a b
    let hi := jsMax a b
    if lo < hi ∧ 0 ≤ lo ∧ hi ≤ s.duration then
      (some (lo, hi), clearExtractRange s)
    else (none, s)
  | _, _, _ => (none, s)

/-- The "Delete Selected Range" commit operation: the button invoking
`executeDeleteRange` is rendered only under `hasValidDeleteRange`
(`VideoPlayer.tsx` lines 642-651), so a commit is a no-op unless that guard
holds. -/
def commitDelete (pr : Props) (s : PlayerState) : Option (ℚ × ℚ) × PlayerState :=
  if hasValidDeleteRange s then executeDeleteRange pr s else (none, s)

/-- The "Extract Selected Range" commit operation: the button invoking
`executeExtractRange` is rendered only under `hasValidExtractRange`
(`VideoPlayer.tsx` lines 692-701). -/
def commitExtract (pr : Props) (s : PlayerState) : Option (ℚ × ℚ) × PlayerState :=
  if hasValidExtractRange s then executeExtractRange pr s else (none, s)

/-- The "Select Range to Delete" button (`VideoPlayer.tsx` lines 618-631):
rendered only when `onDeleteRange` exists, no delete selection is in progress
and no valid delete range is set; it arms delete selection and resets the
delete endpoints, touching nothing else. -/
def selectDeleteMode (pr : Props) (s : PlayerState) : PlayerState :=
  if pr.hasDeleteCb ∧ ¬s.isSelectingDeleteRange ∧ ¬hasValidDeleteRange s then
    { s with isSelectingDeleteRange := true, deleteRangeStart := none,
             deleteRangeEnd := none }
  else s

/-- The "Select Range to Extract" button (`VideoPlayer.tsx` lines 668-681):
rendered only when `onExtractRange` exists, no extract selection is in
progress and no valid extract range is set; it arms extract selection and
resets the extract endpoints.  The delete-selection fields are not touched. -/
def selectExtractMode (pr : Props) (s : PlayerState) : PlayerState :=
  if pr.hasExtractCb ∧ ¬s.isSelectingExtractRange ∧ ¬hasValidExtractRange s then
    { s with isSelectingExtractRange := true, extractRangeStart := none,
             extractRangeEnd := none }
  else s

/-- The user-reachable events of the `VideoPlayer` selection logic. -/
inductive PEvent where
  | click (t : ℚ)
  | durationChange (d : ℚ)
  | selectDelete
  | selectExtract
  | clearDelete
  | clearExtract
  | commitDeleteBtn
  | commitExtractBtn
deriving DecidableEq, Repr

/-- Apply one event to the player state (commit emissions are dropped here;
they are studied through `commitDelete` / `commitExtract` directly).  The
clear buttons are rendered while a selection is in progress or a valid range
exists (`VideoPlayer.tsx` lines 632-641, 652-660, 682-691, 702-710). -/
def applyPEvent (pr : Props) (s : PlayerState) : PEvent → PlayerState
  | .click t => handleSeek pr t s
  | .durationChange d => handleDurationChange d s
  | .selectDelete => selectDeleteMode pr s
  | .selectExtract => selectExtractMode pr s
  | .clearDelete =>
    if s.isSelectingDeleteRange ∨ hasValidDeleteRange s then clearDeleteRange s else s
  | .clearExtract =>
    if s.isSelectingExtractRange ∨ hasValidExtractRange s then clearExtractRange s else s
  | .commitDeleteBtn => (commitDelete pr s).2
  | .commitExtractBtn => (commitExtract pr s).2

/-- Run a list of events from a state. -/
def runPEvents (pr : Props) (s : PlayerState) : List PEvent → PlayerState
  | [] => s
  | e :: es => runPEvents pr (applyPEvent pr s e) es

/-- A delete selection is in progress or ready: the delete start is set or the
delete selecting flag is on. -/
def deleteActive (s : PlayerState) : Prop :=
  s.deleteRangeStart ≠ none ∨ s.isSelectingDeleteRange = true

/-- An extract selection is in progress or ready. -/
def extractActive (s : PlayerState) : Prop :=
  s.extractRangeStart ≠ none ∨ s.isSelectingExtractRange = true

/-- The extract range is undefined: both endpoints `null` and the selecting
flag off. -/
def extractUndefined (s : PlayerState) : Prop :=
  s.extractRangeStart = none ∧ s.extractRangeEnd = none ∧
    s.isSelectingExtractRange = false

/-- The delete range is undefined. -/
def deleteUndefined (s : PlayerState) : Prop :=
  s.deleteRangeStart = none ∧ s.deleteRangeEnd = none ∧
    s.isSelectingDeleteRange = false

instance (s : PlayerState) : Decidable (deleteActive s) := by
  unfold deleteActive; infer_instance

instance (s : PlayerState) : Decidable (extractActive s) := by
  unfold extractActive; infer_instance

instance (s : PlayerState) : Decidable (extractUndefined s) := by
  unfold extractUndefined; infer_instance

instance (s : PlayerState) : Decidable (deleteUndefined s) := by
  unfold deleteUndefined; infer_instance

/-! ### Trim-range state: `VideoEditor.tsx` + `VideoEditControls.tsx` -/

/-- The trim-relevant state of `VideoEditor` (`VideoEditor.tsx` lines 24-27):
`videoDuration` (0 while unknown), `trimStart`, `trimEnd`.
`VideoEditControls` mirrors these fields through its sync effects
(`VideoEditControls.tsx` lines 62-70) and reports every change back through
`onTrimDataChange`, so the pair of components maintains one shared trim
state. -/
structure EditorState where
  videoDuration : ℚ
  trimStart : ℚ
  trimEnd : ℚ
deriving DecidableEq, Repr

/-- Initial editor state: `trimStart = 0`, `trimEnd = 30`, duration unknown
(`VideoEditor.tsx` lines 24-27; `handleVideoSelect` lines 48-52 resets to the
same values). -/
def initEditor : EditorState :=
  { videoDuration := 0, trimStart := 0, trimEnd := 30 }

/-- The duration value `VideoEditControls` derives from its prop
(`VideoEditControls.tsx` line 43): `externalVideoDuration > 0 ?
externalVideoDuration : 0`. -/
def localDuration (st : EditorState) : ℚ :=
  if 0 < st.videoDuration then st.videoDuration else 0

/-- `handleVideoDurationChange` (`VideoEditor.tsx` lines 119-129): store the
duration; if `trimEnd > duration`, clamp `trimEnd` to `Math.min(duration, 30)`.
`trimStart` is not touched. -/
def handleVideoDurationChange (d : ℚ) (st : EditorState) : EditorState :=
  { videoDuration := d
    trimStart := st.trimStart
    trimEnd := if st.trimEnd > d then jsMin d 30 else st.trimEnd }

/-- The trim-end reset effect (`VideoEditControls.tsx` lines 53-60): when the
derived duration is positive and `trimEnd` exceeds it, clamp `trimEnd` to
`Math.min(videoDuration, 30)` and propagate. -/
def clampTrimEffect (st : EditorState) : EditorState :=
  if 0 < localDuration st ∧ st.trimEnd > localDuration st then
    { st with trimEnd := jsMin (localDuration st) 30 }
  else st

/-- The Start Time number input's `onChange` (`VideoEditControls.tsx` lines
548-556): `newStart = Math.max(0, Math.min(value, currentEnd - 0.1))`; the
end bound is unchanged. -/
def setStartInput (v : ℚ) (st : EditorState) : EditorState :=
  { st with trimStart := jsMax 0 (jsMin v (st.trimEnd - 1/10)) }

/-- The End Time number input's `onChange` (`VideoEditControls.tsx` lines
593-603): `newEnd = Math.min(videoDuration, Math.max(value, trimStart + 0.1))`;
the start bound is unchanged. -/
def setEndInput (v : ℚ) (st : EditorState) : EditorState :=
  { st with trimEnd := jsMin (localDuration st) (jsMax v (st.trimStart + 1/10)) }

/-- `adjustTrimTime('start', delta)` (`VideoEditControls.tsx` lines 324-329). -/
def adjustTrimStart (delta : ℚ) (st : EditorState) : EditorState :=
  { st with trimStart := jsMax 0 (jsMin (st.trimStart + delta) (st.trimEnd - 1/10)) }

/-- `adjustTrimTime('end', delta)` (`VideoEditControls.tsx` lines 330-337). -/
def adjustTrimEnd (delta : ℚ) (st : EditorState) : EditorState :=
  { st with trimEnd := jsMin (localDuration st) (jsMax (st.trimEnd + delta) (st.trimStart + 1/10)) }

/-- The Reset button (`VideoEditControls.tsx` lines 634-641):
`trimStart := 0`, `trimEnd := Math.min(30, videoDuration)`. -/
def resetTrim (st : EditorState) : EditorState :=
  { st with trimStart := 0, trimEnd := jsMin 30 (localDuration st) }

/-- The user-reachable trim-state events.  A `durationReport` is delivered by
`VideoPlayer`, which forwards the media element's duration only when it is
finite and positive (`VideoPlayer.tsx` lines 64-71); then
`handleVideoDurationChange` runs in `VideoEditor` and the clamp effect runs in
`VideoEditControls`. -/
inductive EEvent where
  | durationReport (d : ℚ)
  | startInput (v : ℚ)
  | endInput (v : ℚ)
  | adjustStart (delta : ℚ)
  | adjustEnd (delta : ℚ)
  | reset
deriving DecidableEq, Repr

/-- Apply one trim event. -/
def applyEEvent (st : EditorState) : EEvent → EditorState
  | .durationReport d =>
    if 0 < d then clampTrimEffect (handleVideoDurationChange d st) else st
  | .startInput v => setStartInput v st
  | .endInput v => setEndInput v st
  | .adjustStart delta => adjustTrimStart delta st
  | .adjustEnd delta => adjustTrimEnd delta st
  | .reset => resetTrim st

/-- Run a list of trim events from a state. -/
def runEEvents (st : EditorState) : List EEvent → EditorState
  | [] => st
  | e :: es => runEEvents (applyEEvent st e) es

/-! ### Server-side delete-range validation:
`src/app/api/video/delete-range/route.ts` -/

/-- Outcome of the delete-range POST handler's validation
(`delete-range/route.ts`).  `processed p1 p2` means the request reached the
ffmpeg processing stage with `hasPart1 = p1` (`deleteStartTime > 0`, line 145)
and `hasPart2 = p2` (`deleteEndTime < videoDuration`, line 146). -/
inductive DeleteRangeResult where
  | badOrder
  | entireVideo
  | processed (hasPart1 hasPart2 : Bool)
deriving DecidableEq, Repr

/-- The validation logic of the POST handler (`delete-range/route.ts` lines
26-31, 140-146) for a request whose `deleteStart`/`deleteEnd` form fields
parse to `s`/`e` and whose video's detected duration is `d`: a 400 error when
`s ≥ e` (line 29), a 400 "Cannot delete entire video" error when `s ≤ 0 ∧
e ≥ d` (line 141), otherwise ffmpeg processing with `hasPart1`/`hasPart2` as
in lines 145-146.  (The earlier missing-field check and the duration-detection
failure path return before these values exist and are outside this model.) -/
def deleteRangeRoute (s e d : ℚ) : DeleteRangeResult :=
  if s ≥ e then .badOrder
  else if s ≤ 0 ∧ e ≥ d then .entireVideo
  else .processed (decide (s > 0)) (decide (e < d))

/-! ### Concrete scenario states used in witnesses -/

/-- The player state reached by: duration 20 reported, delete mode entered,
timeline clicked at 4 and then at 2 — a completed ("ready") delete selection
whose raw clicks are reversed. -/
def readyDelete42 : PlayerState :=
  runPEvents ⟨true, true⟩ initPlayer
    [.durationChange 20, .selectDelete, .click 4, .click 2]

/-- The player state reached by: duration 20 reported, extract mode entered,
timeline clicked at 1 and then at 3 — a completed extract selection. -/
def readyExtract13 : PlayerState :=
  runPEvents ⟨true, true⟩ initPlayer
    [.durationChange 20, .selectExtract, .click 1, .click 3]

end Timeline

namespace Timeline

/-! ### General lemmas about the JS arithmetic helpers -/

theorem jsMin_eq_min (a b : ℚ) : jsMin a b = min a b := by
  simp [jsMin, min_def]

theorem jsMax_eq_max (a b : ℚ) : jsMax a b = max a b := by
  rw [jsMax, max_def]

theorem jsAbs_eq_abs (x : ℚ) : jsAbs x = |x| := by
  rcases lt_or_le x 0 with h | h
  · simp [jsAbs, h, abs_of_neg h]
  · simp [jsAbs, not_lt.mpr h, abs_of_nonneg h]

theorem jsMax_sub_jsMin (a b : ℚ) : jsMax a b - jsMin a b = jsAbs (b - a) := by
  rw [jsMin_eq_min, jsMax_eq_max, jsAbs_eq_abs, max_sub_min_eq_abs, abs_sub_comm]

/-! ### Emission helpers for the execute / commit operations -/

/-- What holds whenever `executeDeleteRange` emits: the callback exists, both
raw endpoints are set, the emitted pair is their normalization, it satisfies
`0 ≤ a < b ≤ duration`, and the post-state is the cleared state. -/
theorem executeDeleteRange_emit {pr : Props} {s : PlayerState} {a b : ℚ}
    (h : (executeDeleteRange pr s).1 = some (a, b)) :
    pr.hasDeleteCb = true ∧
    ∃ x y, s.deleteRangeStart = some x ∧ s.deleteRangeEnd = some y ∧
      a = jsMin x y ∧ b = jsMax x y ∧ a < b ∧ 0 ≤ a ∧ b ≤ s.duration ∧
      (executeDeleteRange pr s).2 = clearDeleteRange s := by
  cases hcb : pr.hasDeleteCb <;>
    cases hst : s.deleteRangeStart <;>
      cases hen : s.deleteRangeEnd <;>
        simp only [executeDeleteRange, hcb, hst, hen] at h ⊢ <;>
          try exact absurd h (by simp)
  split at h
  · rename_i hcond
    simp only [Option.some.injEq, Prod.mk.injEq] at h
    refine ⟨trivial, _, _, rfl, rfl, h.1.symm, h.2.symm, ?_, ?_, ?_, ?_⟩
    · rw [← h.1, ← h.2]; exact hcond.1
    · rw [← h.1]; exact hcond.2.1
    · rw [← h.2]; exact hcond.2.2
    · simp [executeDeleteRange, hcb, hst, hen, hcond]
  · exact absurd h (by simp)

/-- What holds whenever `executeExtractRange` emits. -/
theorem executeExtractRange_emit {pr : Props} {s : PlayerState} {a b : ℚ}
    (h : (executeExtractRange pr s).1 = some (a, b)) :
    pr.hasExtractCb = true ∧
    ∃ x y, s.extractRangeStart = some x ∧ s.extractRangeEnd = some y ∧
      a = jsMin x y ∧ b = jsMax x y ∧ a < b ∧ 0 ≤ a ∧ b ≤ s.duration ∧
      (executeExtractRange pr s).2 = clearExtractRange s := by
  cases hcb : pr.hasExtractCb <;>
    cases hst : s.extractRangeStart <;>
      cases hen : s.extractRangeEnd <;>
        simp only [executeExtractRange, hcb, hst, hen] at h ⊢ <;>
          try exact absurd h (by simp)
  split at h
  · rename_i hcond
    simp only [Option.some.injEq, Prod.mk.injEq] at h
    refine ⟨trivial, _, _, rfl, rfl, h.1.symm, h.2.symm, ?_, ?_, ?_, ?_⟩
    · rw [← h.1, ← h.2]; exact hcond.1
    · rw [← h.1]; exact hcond.2.1
    · rw [← h.2]; exact hcond.2.2
    · simp [executeExtractRange, hcb, hst, hen, hcond]
  · exact absurd h (by simp)

/-- When `executeDeleteRange` does not emit, the state is unchanged. -/
theorem executeDeleteRange_noEmit {pr : Props} {s : PlayerState}
    (h : (executeDeleteRange pr s).1 = none) :
    (executeDeleteRange pr s).2 = s := by
  cases hcb : pr.hasDeleteCb <;>
    cases hst : s.deleteRangeStart <;>
      cases hen : s.deleteRangeEnd <;>
        simp only [executeDeleteRange, hcb, hst, hen] at h ⊢ <;> try rfl
  split at h
  · exact absurd h (by simp)
  · rename_i hcond
    rw [if_neg hcond]

/-- When `executeExtractRange` does not emit, the state is unchanged. -/
theorem executeExtractRange_noEmit {pr : Props} {s : PlayerState}
    (h : (executeExtractRange pr s).1 = none) :
    (executeExtractRange pr s).2 = s := by
  cases hcb : pr.hasExtractCb <;>
    cases hst : s.extractRangeStart <;>
      cases hen : s.extractRangeEnd <;>
        simp only [executeExtractRange, hcb, hst, hen] at h ⊢ <;> try rfl
  split at h
  · exact absurd h (by simp)
  · rename_i hcond
    rw [if_neg hcond]

/-- A commit emission passes through the `hasValidDeleteRange` button guard
and the `executeDeleteRange` emission. -/
theorem commitDelete_emit {pr : Props} {s : PlayerState} {a b : ℚ}
    (h : (commitDelete pr s).1 = some (a, b)) :
    hasValidDeleteRange s = true ∧ (executeDeleteRange pr s).1 = some (a, b) := by
  by_cases hv : hasValidDeleteRange s = true
  · simp only [commitDelete, hv, ite_true] at h
    exact ⟨hv, h⟩
  · rw [Bool.not_eq_true] at hv
    simp [commitDelete, hv] at h

/-- A commit emission passes through the `hasValidExtractRange` button guard
and the `executeExtractRange` emission. -/
theorem commitExtract_emit {pr : Props} {s : PlayerState} {a b : ℚ}
    (h : (commitExtract pr s).1 = some (a, b)) :
    hasValidExtractRange s = true ∧ (executeExtractRange pr s).1 = some (a, b) := by
  by_cases hv : hasValidExtractRange s = true
  · simp only [commitExtract, hv, ite_true] at h
    exact ⟨hv, h⟩
  · rw [Bool.not_eq_true] at hv
    simp [commitExtract, hv] at h

/-- The `hasValidDeleteRange` guard in terms of the raw endpoints. -/
theorem hasValidDeleteRange_spec {s : PlayerState} {x y : ℚ}
    (hv : hasValidDeleteRange s = true)
    (hst : s.deleteRangeStart = some x) (hen : s.deleteRangeEnd = some y) :
    jsAbs (y - x) > 1/10 := by
  simp only [hasValidDeleteRange, hst, hen, decide_eq_true_eq] at hv
  exact hv

/-- The `hasValidExtractRange` guard in terms of the raw endpoints. -/
theorem hasValidExtractRange_spec {s : PlayerState} {x y : ℚ}
    (hv : hasValidExtractRange s = true)
    (hst : s.extractRangeStart = some x) (hen : s.extractRangeEnd = some y) :
    jsAbs (y - x) > 1/10 := by
  simp only [hasValidExtractRange, hst, hen, decide_eq_true_eq] at hv
  exact hv

end Timeline

namespace Timeline

/-! ### Claim theorems -/

/-- C8: normalization is commutative — `normalize a b = normalize b a` for all
`a, b` — and the committed range is click-order independent: entering delete
selection and clicking at `t = 4` then `t = 2` leaves a valid ("ready") delete
selection whose commit emits the range `(2, 4)`, exactly as clicking `t = 2`
then `t = 4` does. -/
theorem C8_normalize_commutative_click_order_independent (a b : ℚ) :
    normalize a b = normalize b a ∧
    hasValidDeleteRange (runPEvents ⟨true, true⟩ initPlayer
      [.durationChange 20, .selectDelete, .click 4, .click 2]) = true ∧
    (commitDelete ⟨true, true⟩ (runPEvents ⟨true, true⟩ initPlayer
      [.durationChange 20, .selectDelete, .click 4, .click 2])).1 = some (2, 4) ∧
    (commitDelete ⟨true, true⟩ (runPEvents ⟨true, true⟩ initPlayer
      [.durationChange 20, .selectDelete, .click 2, .click 4])).1 = some (2, 4) := by
  refine ⟨?_, ?_, ?_, ?_⟩
  · simp only [normalize, jsMin_eq_min, jsMax_eq_max, min_comm, max_comm]
  · norm_num [runPEvents, applyPEvent, handleSeek, handleDurationChange,
      selectDeleteMode, hasValidDeleteRange, initPlayer, jsAbs]
  · norm_num [runPEvents, applyPEvent, handleSeek, handleDurationChange,
      selectDeleteMode, hasValidDeleteRange, initPlayer, commitDelete,
      executeDeleteRange, clearDeleteRange, jsAbs, jsMin, jsMax]
  · norm_num [runPEvents, applyPEvent, handleSeek, handleDurationChange,
      selectDeleteMode, hasValidDeleteRange, initPlayer, commitDelete,
      executeDeleteRange, clearDeleteRange, jsAbs, jsMin, jsMax]

/-- C10: the delete-range POST handler's validation — a request with
`deleteStart ≥ deleteEnd` is rejected with a 400 error; a request passing the
order check with `deleteStart ≤ 0` and `deleteEnd ≥` the detected duration is
rejected with the 400 "Cannot delete entire video" error; and every request
that reaches ffmpeg processing has `hasPart1 ↔ deleteStart > 0`,
`hasPart2 ↔ deleteEnd < duration`, and at least one of the two parts, so a
non-empty piece of the video is always kept. -/
theorem C10_delete_range_route_validation (s e d : ℚ) :
    (s ≥ e → deleteRangeRoute s e d = .badOrder) ∧
    (s < e → s ≤ 0 → e ≥ d → deleteRangeRoute s e d = .entireVideo) ∧
    (∀ p1 p2, deleteRangeRoute s e d = .processed p1 p2 →
      (p1 = true ↔ 0 < s) ∧ (p2 = true ↔ e < d) ∧ (p1 = true ∨ p2 = true)) := by
  refine ⟨fun h => by simp [deleteRangeRoute, h], fun h1 h2 h3 => ?_, fun p1 p2 hp => ?_⟩
  · have : ¬ s ≥ e := not_le.mpr h1
    simp [deleteRangeRoute, this, h2, h3]
  · by_cases h1 : s ≥ e
    · simp [deleteRangeRoute, h1] at hp
    · by_cases h2 : s ≤ 0 ∧ e ≥ d
      · simp [deleteRangeRoute, h1, h2] at hp
      · simp only [deleteRangeRoute, if_neg h1, if_neg h2,
          DeleteRangeResult.processed.injEq] at hp
        obtain ⟨hp1, hp2⟩ := hp
        rw [← hp1, ← hp2]
        refine ⟨by simp, by simp, ?_⟩
        rcases not_and_or.mp h2 with h | h
        · exact Or.inl (by simp [not_le.mp h])
        · exact Or.inr (by simp [not_le.mp h])

/-- Witness for C10 at concrete inputs: `(5,3)` hits the order error, `(0,12)`
over a 10-second video hits the entire-video error, and `(2,8)` over a
10-second video proceeds with both parts kept. -/
theorem C10_delete_range_route_validation_witness :
    deleteRangeRoute 5 3 10 = .badOrder ∧
    deleteRangeRoute 0 12 10 = .entireVideo ∧
    (deleteRangeRoute 2 8 10 = .processed true true → (0:ℚ) < 2) := by
  refine ⟨(C10_delete_range_route_validation 5 3 10).1 (by norm_num),
    (C10_delete_range_route_validation 0 12 10).2.1 (by norm_num) (by norm_num)
      (by norm_num),
    fun hp => (((C10_delete_range_route_validation 2 8 10).2.2 true true hp).1).mp rfl⟩

/-- C3: minimum width enforcement — every range emitted by the delete or
extract commit operation (the UI button, which only exists under the
`hasValid…Range` guard and calls `execute…Range`) satisfies
`end - start > 0.1`; no state, reachable or not, can commit a narrower
range. -/
theorem C3_committed_range_min_width (pr : Props) (s : PlayerState) (a b : ℚ)
    (h : (commitDelete pr s).1 = some (a, b) ∨ (commitExtract pr s).1 = some (a, b)) :
    b - a > 1/10 := by
  rcases h with h | h
  · obtain ⟨hv, he⟩ := commitDelete_emit h
    obtain ⟨-, x, y, hst, hen, ha, hb, -⟩ := executeDeleteRange_emit he
    rw [ha, hb, jsMax_sub_jsMin]
    exact hasValidDeleteRange_spec hv hst hen
  · obtain ⟨hv, he⟩ := commitExtract_emit h
    obtain ⟨-, x, y, hst, hen, ha, hb, -⟩ := executeExtractRange_emit he
    rw [ha, hb, jsMax_sub_jsMin]
    exact hasValidExtractRange_spec hv hst hen

/-- Witness for C3: the ready delete selection with raw clicks 4 then 2 on a
20-second asset commits the range `(2, 4)`, whose width exceeds 0.1. -/
theorem C3_committed_range_min_width_witness :
    (commitDelete ⟨true, true⟩ readyDelete42).1 = some (2, 4) ∧
    (4 : ℚ) - 2 > 1/10 := by
  have hemit : (commitDelete ⟨true, true⟩ readyDelete42).1 = some (2, 4) := by
    norm_num [readyDelete42, runPEvents, applyPEvent, handleSeek,
      handleDurationChange, selectDeleteMode, hasValidDeleteRange, initPlayer,
      commitDelete, executeDeleteRange, clearDeleteRange, jsAbs, jsMin, jsMax]
  exact ⟨hemit, C3_committed_range_min_width ⟨true, true⟩ readyDelete42 2 4
    (Or.inl hemit)⟩

end Timeline

namespace Timeline

/-- C1: mutual exclusion FAILS on the code.  With both callbacks supplied,
after reporting duration 20, pressing "Select Range to Delete", clicking the
timeline at 4 (delete start armed, still selecting) and then pressing
"Select Range to Extract", the reached state has the delete selection in
progress while the extract selection is also armed: a delete selection being
in progress does not imply the extract range is undefined. -/
theorem C1_mutual_exclusion_fails_on_code :
    deleteActive (runPEvents ⟨true, true⟩ initPlayer
      [.durationChange 20, .selectDelete, .click 4, .selectExtract]) ∧
    extractActive (runPEvents ⟨true, true⟩ initPlayer
      [.durationChange 20, .selectDelete, .click 4, .selectExtract]) ∧
    ¬ extractUndefined (runPEvents ⟨true, true⟩ initPlayer
      [.durationChange 20, .selectDelete, .click 4, .selectExtract]) := by
  norm_num [runPEvents, applyPEvent, handleSeek, handleDurationChange,
    selectDeleteMode, selectExtractMode, hasValidDeleteRange,
    hasValidExtractRange, initPlayer, jsAbs, deleteActive, extractActive,
    extractUndefined]

/-- C2 counterexample: in the player instance the editor actually mounts
(`onDeleteRange` supplied, `onExtractRange` not), after duration 20 is
reported an idle timeline click at 10 arms a delete selection instead of
seeking: the playhead stays at 0 and delete-selection state is created, so the
claimed postcondition (`currentTime = 10` and no selection state) is false. -/
theorem C2_idle_click_does_not_seek_counterexample :
    (runPEvents ⟨true, false⟩ initPlayer
      [.durationChange 20, .click 10]).currentTime = 0 ∧
    (runPEvents ⟨true, false⟩ initPlayer
      [.durationChange 20, .click 10]).deleteRangeStart = some 10 ∧
    (runPEvents ⟨true, false⟩ initPlayer
      [.durationChange 20, .click 10]).isSelectingDeleteRange = true ∧
    ¬((runPEvents ⟨true, false⟩ initPlayer
        [.durationChange 20, .click 10]).currentTime = 10 ∧
      deleteUndefined (runPEvents ⟨true, false⟩ initPlayer
        [.durationChange 20, .click 10])) := by
  norm_num [runPEvents, applyPEvent, handleSeek, handleDurationChange,
    initPlayer, deleteUndefined]

/-- C2 (amended): an idle timeline click seeks the playhead only when neither
range-selection callback is supplied to the player; in that configuration,
after duration 20 is reported a click at 10 sets `currentTime = 10` and
creates no delete or extract selection state. -/
theorem C2_idle_click_seeks_without_range_callbacks :
    (runPEvents ⟨false, false⟩ initPlayer
      [.durationChange 20, .click 10]).currentTime = 10 ∧
    deleteUndefined (runPEvents ⟨false, false⟩ initPlayer
      [.durationChange 20, .click 10]) ∧
    extractUndefined (runPEvents ⟨false, false⟩ initPlayer
      [.durationChange 20, .click 10]) := by
  norm_num [runPEvents, applyPEvent, handleSeek, handleDurationChange,
    initPlayer, deleteUndefined, extractUndefined]

/-- C7: the mode-switch tie-break FAILS on the code.  With a delete selection
in progress and its start armed at 4, pressing "Select Range to Extract" does
arm the extract selection with no start point, but the delete selection is NOT
discarded: its start point and selecting flag survive (and, since `handleSeek`
tests the delete flag first, the next timeline click still goes to the delete
selection). -/
theorem C7_mode_switch_keeps_delete_selection :
    (runPEvents ⟨true, true⟩ initPlayer
      [.durationChange 20, .selectDelete, .click 4, .selectExtract]).isSelectingExtractRange = true ∧
    (runPEvents ⟨true, true⟩ initPlayer
      [.durationChange 20, .selectDelete, .click 4, .selectExtract]).extractRangeStart = none ∧
    (runPEvents ⟨true, true⟩ initPlayer
      [.durationChange 20, .selectDelete, .click 4, .selectExtract]).deleteRangeStart = some 4 ∧
    (runPEvents ⟨true, true⟩ initPlayer
      [.durationChange 20, .selectDelete, .click 4, .selectExtract]).isSelectingDeleteRange = true := by
  norm_num [runPEvents, applyPEvent, handleSeek, handleDurationChange,
    selectDeleteMode, selectExtractMode, hasValidDeleteRange,
    hasValidExtractRange, initPlayer, jsAbs]

/-- C4 counterexample: after building the ready delete range `(2, 4)` on a
20-second asset, reporting duration 3 leaves the range in place — it is not
discarded and the mode does not revert to Idle. -/
theorem C4_stale_range_not_discarded_counterexample :
    (runPEvents ⟨true, true⟩ initPlayer
      [.durationChange 20, .selectDelete, .click 2, .click 4,
        .durationChange 3]).deleteRangeStart = some 2 ∧
    (runPEvents ⟨true, true⟩ initPlayer
      [.durationChange 20, .selectDelete, .click 2, .click 4,
        .durationChange 3]).deleteRangeEnd = some 4 ∧
    ¬ deleteUndefined (runPEvents ⟨true, true⟩ initPlayer
      [.durationChange 20, .selectDelete, .click 2, .click 4,
        .durationChange 3]) := by
  norm_num [runPEvents, applyPEvent, handleSeek, handleDurationChange,
    selectDeleteMode, hasValidDeleteRange, initPlayer, jsAbs, deleteUndefined]
  intro h
  exact absurd h (by simp)

/-- C4 (amended): a duration update never discards a completed selection —
every delete- and extract-selection field survives `handleDurationChange`
unchanged — but a stale range is still never committed against the new
duration, because a commit emits only ranges whose end does not exceed the
current duration. -/
theorem C4_duration_update_keeps_selection_blocks_stale_commit
    (pr : Props) (s : PlayerState) (d : ℚ) :
    (handleDurationChange d s).deleteRangeStart = s.deleteRangeStart ∧
    (handleDurationChange d s).deleteRangeEnd = s.deleteRangeEnd ∧
    (handleDurationChange d s).isSelectingDeleteRange = s.isSelectingDeleteRange ∧
    (handleDurationChange d s).extractRangeStart = s.extractRangeStart ∧
    (handleDurationChange d s).extractRangeEnd = s.extractRangeEnd ∧
    (handleDurationChange d s).isSelectingExtractRange = s.isSelectingExtractRange ∧
    ∀ a b,
      (commitDelete pr (handleDurationChange d s)).1 = some (a, b) ∨
      (commitExtract pr (handleDurationChange d s)).1 = some (a, b) → b ≤ d := by
  refine ⟨rfl, rfl, rfl, rfl, rfl, rfl, fun a b h => ?_⟩
  rcases h with h | h
  · obtain ⟨-, he⟩ := commitDelete_emit h
    obtain ⟨-, x, y, -, -, -, -, -, -, hb, -⟩ := executeDeleteRange_emit he
    exact hb
  · obtain ⟨-, he⟩ := commitExtract_emit h
    obtain ⟨-, x, y, -, -, -, -, -, -, hb, -⟩ := executeExtractRange_emit he
    exact hb

/-- Witness for C4: with the ready delete range `(raw 4, 2)` and the duration
(re)set to 20, the commit emits `(2, 4)` and the emitted end is bounded by the
duration. -/
theorem C4_duration_update_keeps_selection_blocks_stale_commit_witness :
    (commitDelete ⟨true, true⟩ (handleDurationChange 20 readyDelete42)).1
      = some (2, 4) ∧ (4 : ℚ) ≤ 20 := by
  have hemit : (commitDelete ⟨true, true⟩
      (handleDurationChange 20 readyDelete42)).1 = some (2, 4) := by
    norm_num [readyDelete42, runPEvents, applyPEvent, handleSeek,
      handleDurationChange, selectDeleteMode, hasValidDeleteRange, initPlayer,
      commitDelete, executeDeleteRange, clearDeleteRange, jsAbs, jsMin, jsMax]
  exact ⟨hemit,
    (C4_duration_update_keeps_selection_blocks_stale_commit ⟨true, true⟩
      readyDelete42 20).2.2.2.2.2.2 2 4 (Or.inl hemit)⟩

/-- C9: the execute operations emit only when both raw endpoints are set and
the normalized range satisfies `0 ≤ start < end ≤ duration`; in every other
case they emit nothing and leave the state unchanged; and exactly when they
emit, the corresponding selection state (both endpoints and the selecting
flag) is cleared. -/
theorem C9_execute_emission_guard (pr : Props) (s : PlayerState) :
    (∀ a b, (executeDeleteRange pr s).1 = some (a, b) →
      s.deleteRangeStart ≠ none ∧ s.deleteRangeEnd ≠ none ∧
      0 ≤ a ∧ a < b ∧ b ≤ s.duration ∧
      (executeDeleteRange pr s).2 = clearDeleteRange s) ∧
    ((executeDeleteRange pr s).1 = none → (executeDeleteRange pr s).2 = s) ∧
    (∀ a b, (executeExtractRange pr s).1 = some (a, b) →
      s.extractRangeStart ≠ none ∧ s.extractRangeEnd ≠ none ∧
      0 ≤ a ∧ a < b ∧ b ≤ s.duration ∧
      (executeExtractRange pr s).2 = clearExtractRange s) ∧
    ((executeExtractRange pr s).1 = none → (executeExtractRange pr s).2 = s) := by
  refine ⟨fun a b h => ?_, executeDeleteRange_noEmit, fun a b h => ?_,
    executeExtractRange_noEmit⟩
  · obtain ⟨-, x, y, hst, hen, ha, hb, hlt, h0, hd, hcl⟩ := executeDeleteRange_emit h
    exact ⟨by simp [hst], by simp [hen], h0, hlt, hd, hcl⟩
  · obtain ⟨-, x, y, hst, hen, ha, hb, hlt, h0, hd, hcl⟩ := executeExtractRange_emit h
    exact ⟨by simp [hst], by simp [hen], h0, hlt, hd, hcl⟩

/-- Witness for C9: at the ready delete state (raw clicks 4 then 2 on a
20-second asset) the execute operation emits `(2, 4)` and clears the delete
selection; at the same state the extract execute emits nothing and leaves the
state unchanged. -/
theorem C9_execute_emission_guard_witness :
    (executeDeleteRange ⟨true, true⟩ readyDelete42).2
        = clearDeleteRange readyDelete42 ∧
    (executeExtractRange ⟨true, true⟩ readyDelete42).2 = readyDelete42 := by
  have hemit : (executeDeleteRange ⟨true, true⟩ readyDelete42).1 = some (2, 4) := by
    norm_num [readyDelete42, runPEvents, applyPEvent, handleSeek,
      handleDurationChange, selectDeleteMode, hasValidDeleteRange, initPlayer,
      executeDeleteRange, clearDeleteRange, jsAbs, jsMin, jsMax]
  have hnone : (executeExtractRange ⟨true, true⟩ readyDelete42).1 = none := by
    norm_num [readyDelete42, runPEvents, applyPEvent, handleSeek,
      handleDurationChange, selectDeleteMode, hasValidDeleteRange, initPlayer,
      executeExtractRange, jsAbs]
  exact ⟨((C9_execute_emission_guard ⟨true, true⟩ readyDelete42).1 2 4
      hemit).2.2.2.2.2,
    (C9_execute_emission_guard ⟨true, true⟩ readyDelete42).2.2.2 hnone⟩

end Timeline

namespace Timeline

/-- A positive duration report that undercuts the current trim end sets the
stored duration to `d` and `trimEnd` to `jsMin d 30`, leaving `trimStart`
untouched; the controls-side clamp effect then has nothing left to do. -/
theorem durationReport_clamps (st : EditorState) (d : ℚ)
    (hd : 0 < d) (hlt : d < st.trimEnd) :
    applyEEvent st (.durationReport d) =
      { videoDuration := d, trimStart := st.trimStart, trimEnd := jsMin d 30 } := by
  have hmin : jsMin d 30 ≤ d := by rw [jsMin_eq_min]; exact min_le_left _ _
  have h1 : handleVideoDurationChange d st =
      { videoDuration := d, trimStart := st.trimStart, trimEnd := jsMin d 30 } := by
    simp only [handleVideoDurationChange, if_pos hlt]
  simp only [applyEEvent, if_pos hd, h1]
  simp only [clampTrimEffect, localDuration]
  simp only [if_pos hd]
  rw [if_neg]
  rintro ⟨-, hgt⟩
  exact absurd hgt (not_lt.mpr hmin)

/-- C5 counterexample: duration 25 is reported, the start input is set to 10
(accepted, since `trimEnd = 25`), and then duration 5 is reported.  The
precondition `d < trimEnd` holds (`5 < 25`), and afterwards
`trimEnd = min(5, 30) = 5` — but `trimStart` remains 10, so the claimed
`trimStart ≤ trimEnd` is false. -/
theorem C5_trim_clamp_start_exceeds_end_counterexample :
    (runEEvents initEditor [.durationReport 25, .startInput 10]).trimEnd = 25 ∧
    (runEEvents initEditor
      [.durationReport 25, .startInput 10, .durationReport 5]).trimEnd = 5 ∧
    (runEEvents initEditor
      [.durationReport 25, .startInput 10, .durationReport 5]).trimStart = 10 ∧
    ¬((runEEvents initEditor
        [.durationReport 25, .startInput 10, .durationReport 5]).trimStart ≤
      (runEEvents initEditor
        [.durationReport 25, .startInput 10, .durationReport 5]).trimEnd) := by
  norm_num [runEEvents, applyEEvent, handleVideoDurationChange, clampTrimEffect,
    localDuration, setStartInput, initEditor, jsMin, jsMax]

/-- C5 (amended): after `onDurationReported(d)` with `0 < d < trimEnd`, the
state satisfies `trimEnd = min(d, 30)`; `trimStart` is left unchanged (the
code never re-clamps it), so `trimStart ≤ trimEnd` holds exactly when the old
`trimStart` already fits under `min(d, 30)`. -/
theorem C5_trim_duration_clamp_amended (st : EditorState) (d : ℚ)
    (hd : 0 < d) (hlt : d < st.trimEnd) :
    (applyEEvent st (.durationReport d)).trimEnd = jsMin d 30 ∧
    (applyEEvent st (.durationReport d)).trimStart = st.trimStart ∧
    (st.trimStart ≤ jsMin d 30 →
      (applyEEvent st (.durationReport d)).trimStart ≤
        (applyEEvent st (.durationReport d)).trimEnd) := by
  rw [durationReport_clamps st d hd hlt]
  exact ⟨rfl, rfl, fun h => h⟩

/-- Witness for C5 (amended): reporting duration 12 on a fresh editor state
(trim `[0, 30]`) clamps the trim end to `min(12, 30) = 12`, and the trim range
stays well-ordered because `trimStart = 0 ≤ 12`. -/
theorem C5_trim_duration_clamp_amended_witness :
    (applyEEvent initEditor (.durationReport 12)).trimEnd = jsMin 12 30 ∧
    (applyEEvent initEditor (.durationReport 12)).trimStart ≤
      (applyEEvent initEditor (.durationReport 12)).trimEnd := by
  have h := C5_trim_duration_clamp_amended initEditor 12 (by norm_num)
    (by norm_num [initEditor])
  exact ⟨h.1, h.2.2 (by norm_num [initEditor, jsMin])⟩

/-- C6 counterexample: on a 20-second asset, submitting start 5 and end 3
through the two time inputs — in either order — never produces the normalized
pair `trimStart = 3, trimEnd = 5`. -/
theorem C6_setTrim_reversed_counterexample :
    ¬((runEEvents initEditor
        [.durationReport 20, .startInput 5, .endInput 3]).trimStart = 3 ∧
      (runEEvents initEditor
        [.durationReport 20, .startInput 5, .endInput 3]).trimEnd = 5) ∧
    ¬((runEEvents initEditor
        [.durationReport 20, .endInput 3, .startInput 5]).trimStart = 3 ∧
      (runEEvents initEditor
        [.durationReport 20, .endInput 3, .startInput 5]).trimEnd = 5) := by
  norm_num [runEEvents, applyEEvent, handleVideoDurationChange, clampTrimEffect,
    localDuration, setStartInput, setEndInput, initEditor, jsMin, jsMax]

/-- C6 (amended): the inputs do not reject reversed bounds, but they clamp
instead of normalizing — no swap occurs.  On a 20-second asset, entering start
5 and then end 3 yields `trimStart = 5, trimEnd = 5.1` (the end input clamps
to `trimStart + 0.1`); entering end 3 and then start 5 yields
`trimStart = 2.9, trimEnd = 3` (the start input clamps to
`trimEnd - 0.1`). -/
theorem C6_setTrim_reversed_clamps :
    (runEEvents initEditor
      [.durationReport 20, .startInput 5, .endInput 3]).trimStart = 5 ∧
    (runEEvents initEditor
      [.durationReport 20, .startInput 5, .endInput 3]).trimEnd = 51/10 ∧
    (runEEvents initEditor
      [.durationReport 20, .endInput 3, .startInput 5]).trimStart = 29/10 ∧
    (runEEvents initEditor
      [.durationReport 20, .endInput 3, .startInput 5]).trimEnd = 3 := by
  norm_num [runEEvents, applyEEvent, handleVideoDurationChange, clampTrimEffect,
    localDuration, setStartInput, setEndInput, initEditor, jsMin, jsMax]

end Timeline
